import Mathlib

/-!
Verification development for the WellnessGrid document-ingestion pipeline.

The definitions below are a shallow embedding of the Python sources:
  * scripts/data-processing/embed_documents.py
      (DocumentEmbedder.chunk_text, DocumentEmbedder.embed_document,
       DocumentRegistry.is_document_embedded / add_embedded_document)
  * scripts/data-processing/embed_and_upload_mcp.py and
    scripts/data-processing/auto_scrape_and_embed.py
      (setup_embedding_model dimension check)
  * scripts/medical_document_scraper.py
      (scrape_all_sources content-hash dedup loop)

Python strings are modelled as `List Char`; Python `int` indices are `Int`
(slice indices can go negative in the chunking loop, and Python slicing
treats negative indices specially, so that behaviour is modelled exactly).
The embedding loop of `chunk_text` is a genuine partial function — for some
inputs the `while` loop never terminates — so it is written with explicit
fuel and `Option`: `none` means the given amount of fuel was exhausted.
-/

namespace WellnessGrid

/-- Python slice-index normalisation for a string of length `len`:
negative indices count from the end (clamped at 0), positive ones are
clamped at `len`. -/
def pyIdx (len : Nat) (a : Int) : Nat :=
  if a < 0 then (a + len).toNat else min a.toNat len

/-- Python `text[a:b]` on a string modelled as `List Char`. -/
def pySlice (text : List Char) (a b : Int) : List Char :=
  (text.drop (pyIdx text.length a)).take (pyIdx text.length b - pyIdx text.length a)

/-- Python `str.isspace`-style whitespace characters relevant to `str.strip()`. -/
def pyIsSpace (c : Char) : Bool :=
  c = ' ' || c = '\t' || c = '\n' || c = '\r' || c = '\x0b' || c = '\x0c'

/-- Python `str.strip()`: remove leading and trailing whitespace. -/
def pyStrip (l : List Char) : List Char :=
  ((l.dropWhile pyIsSpace).reverse.dropWhile pyIsSpace).reverse

/-- Sentence-terminating characters used by the chunker. -/
def isSentChar (c : Char) : Bool :=
  c = '.' || c = '!' || c = '?'

/-- Python truthiness of `text[k:k+1] in '.!?'` (embed_documents.py line 428):
true when the one-character slice is a sentence terminator, and also when the
slice is empty, since in Python the empty string is a substring of every
string. -/
def sentCond (text : List Char) (k : Int) : Bool :=
  match pySlice text k (k + 1) with
  | [] => true
  | [c] => isSentChar c
  | _ => false

/-- The backward sentence-boundary search of embed_documents.py lines 427-430:
`for i in range(m): if text[end-i:end-i+1] in '.!?': end = end - i + 1; break`.
Returns the adjusted `end`. -/
def sentAdjust (text : List Char) (e : Int) (m : Nat) : Int :=
  match (List.range m).find? (fun i : Nat => sentCond text (e - i)) with
  | some i => e - (i : Int) + 1
  | none => e

/-- The window-end computation of one iteration of `chunk_text`'s loop
(embed_documents.py lines 422-430): `end = start + chunk_size`, then, when
`end < len(text)`, the backward sentence-boundary search over
`range(min(overlap, chunk_size // 4))` may adjust it. -/
def chunkEnd (text : List Char) (chunk_size overlap : Nat) (start : Int) : Int :=
  if start + (chunk_size : Int) < (text.length : Int) then
    sentAdjust text (start + (chunk_size : Int)) (min overlap (chunk_size / 4))
  else start + (chunk_size : Int)

/-- The `while start < len(text)` loop of `DocumentEmbedder.chunk_text`
(embed_documents.py lines 421-438), instrumented: one record
`(start, end, strippedChunk)` is kept per iteration (the Python code appends
only non-empty stripped chunks to its result; `keptChunks` below performs
that filtering).  After the body, `start = end - overlap`, and the loop
breaks when `start >= len(text)`.  Fuel-indexed: `none` means the fuel ran
out before the loop finished. -/
def chunkLoop (text : List Char) (chunk_size overlap : Nat) :
    Nat → Int → List (Int × Int × List Char) → Option (List (Int × Int × List Char))
  | 0, _, _ => none
  | fuel + 1, start, acc =>
    if start < (text.length : Int) then
      if (text.length : Int) ≤ chunkEnd text chunk_size overlap start - (overlap : Int) then
        some (acc ++ [(start, chunkEnd text chunk_size overlap start,
          pyStrip (pySlice text start (chunkEnd text chunk_size overlap start)))])
      else
        chunkLoop text chunk_size overlap fuel
          (chunkEnd text chunk_size overlap start - (overlap : Int))
          (acc ++ [(start, chunkEnd text chunk_size overlap start,
            pyStrip (pySlice text start (chunkEnd text chunk_size overlap start)))])
    else some acc

/-- Keep the chunk of each iteration whose stripped text was non-empty,
exactly as the Python loop's `if chunk: chunks.append(chunk)`. -/
def keptChunks : List (Int × Int × List Char) → List (List Char)
  | [] => []
  | r :: rs => if r.2.2 = [] then keptChunks rs else r.2.2 :: keptChunks rs

/-- `DocumentEmbedder.chunk_text` (embed_documents.py lines 413-440), with
explicit fuel for the while-loop. -/
def chunk_text (fuel : Nat) (text : List Char) (chunk_size overlap : Nat) :
    Option (List (List Char)) :=
  if text.length ≤ chunk_size then some [text]
  else (chunkLoop text chunk_size overlap fuel 0 []).map keptChunks

/-- The chunking loop never terminates on this input, whatever the fuel. -/
def chunkDiverges (text : List Char) (chunk_size overlap : Nat) : Prop :=
  ∀ fuel, chunk_text fuel text chunk_size overlap = none

theorem pyIdx_of_nonneg_le (len : Nat) (a : Int) (ha : 0 ≤ a) (h : a ≤ (len : Int)) :
    pyIdx len a = a.toNat := by
  have h1 : ¬ a < 0 := by omega
  have h2 : a.toNat ≤ len := by omega
  simp only [pyIdx, if_neg h1, Nat.min_eq_left h2]

theorem pyIdx_of_ge (len : Nat) (a : Int) (h : (len : Int) ≤ a) :
    pyIdx len a = len := by
  have h1 : ¬ a < 0 := by omega
  have h2 : len ≤ a.toNat := by omega
  simp only [pyIdx, if_neg h1, Nat.min_eq_right h2]

theorem pySlice_eq_take_drop (text : List Char) (a b : Int) (ha : 0 ≤ a)
    (hab : a ≤ b) (hb : b ≤ (text.length : Int)) :
    pySlice text a b = (text.drop a.toNat).take (b.toNat - a.toNat) := by
  simp only [pySlice, pyIdx_of_nonneg_le text.length a ha (le_trans hab hb),
    pyIdx_of_nonneg_le text.length b (le_trans ha hab) hb]

theorem pySlice_eq_drop (text : List Char) (a b : Int) (ha : 0 ≤ a)
    (hal : a ≤ (text.length : Int)) (hb : (text.length : Int) ≤ b) :
    pySlice text a b = text.drop a.toNat := by
  simp only [pySlice, pyIdx_of_nonneg_le text.length a ha hal, pyIdx_of_ge text.length b hb]
  exact List.take_of_length_le (by simp [List.length_drop])

theorem dropWhile_eq_self_of_not (p : Char → Bool) (l : List Char)
    (h : ∀ c ∈ l, p c = false) : l.dropWhile p = l := by
  cases l with
  | nil => rfl
  | cons a l =>
    rw [List.dropWhile_cons, if_neg]
    simp [h a (List.mem_cons_self a l)]

theorem pyStrip_eq_self (l : List Char) (h : ∀ c ∈ l, pyIsSpace c = false) :
    pyStrip l = l := by
  unfold pyStrip
  rw [dropWhile_eq_self_of_not _ _ h,
    dropWhile_eq_self_of_not _ _ (fun c hc => h c (List.mem_reverse.mp hc)),
    List.reverse_reverse]

theorem pyStrip_eq_nil (l : List Char) (h : ∀ c ∈ l, pyIsSpace c = true) :
    pyStrip l = [] := by
  unfold pyStrip
  rw [List.dropWhile_eq_nil_iff.mpr h]
  simp

theorem sentCond_eq (text : List Char) (k : Int) (hk : 0 ≤ k)
    (hlt : k < (text.length : Int)) :
    sentCond text k = isSentChar (text.get ⟨k.toNat, by omega⟩) := by
  have hb : k + 1 ≤ (text.length : Int) := by omega
  have h1 : pySlice text k (k + 1) = (text.drop k.toNat).take ((k + 1).toNat - k.toNat) :=
    pySlice_eq_take_drop text k (k + 1) hk (by omega) hb
  have h2 : (k + 1).toNat - k.toNat = 1 := by omega
  have h3 : k.toNat < text.length := by omega
  rw [h2, List.drop_eq_getElem_cons h3] at h1
  simp only [List.take_succ_cons, List.take_zero] at h1
  unfold sentCond
  rw [h1, List.get_eq_getElem]

theorem sentAdjust_eq_self (text : List Char) (e : Int) (m : Nat)
    (h : ∀ i, i < m → sentCond text (e - (i : Int)) = false) :
    sentAdjust text e m = e := by
  have hn : (List.range m).find? (fun i : Nat => sentCond text (e - i)) = none :=
    List.find?_eq_none.mpr (fun i hi => by
      rw [h i (List.mem_range.mp hi)]
      exact Bool.false_ne_true)
  unfold sentAdjust
  rw [hn]

/-- The content used to exhibit non-termination of `chunk_text` when
`overlap = chunk_size`: any text longer than the chunk size will do. -/
def abText : List Char := ['a', 'b']

theorem chunkLoop_ab_stuck (fuel : Nat) :
    ∀ acc, chunkLoop abText 1 1 fuel 0 acc = none := by
  induction fuel with
  | zero => intro acc; rfl
  | succ n ih =>
    intro acc
    have hstep : chunkLoop abText 1 1 (n + 1) 0 acc
        = chunkLoop abText 1 1 n 0 (acc ++ [(0, 1, ['a'])]) := rfl
    rw [hstep]
    exact ih _

/-- A 30-character content with a sentence terminator at index 16; with
`chunk_size = 20` and `overlap = 19` (so `overlap < chunk_size`) the
sentence-boundary search pulls `end` back to 17 on every iteration, the
window start gets stuck at `17 - 19 = -2`, and the Python negative-index
slice `text[-2:17]` is empty, so the loop makes no progress forever. -/
def t30 : List Char := List.replicate 16 'a' ++ '.' :: List.replicate 13 'a'

theorem chunkLoop_t30_stuck (fuel : Nat) :
    ∀ acc, chunkLoop t30 20 19 fuel (-2) acc = none := by
  induction fuel with
  | zero => intro acc; rfl
  | succ n ih =>
    intro acc
    have hstep : chunkLoop t30 20 19 (n + 1) (-2) acc
        = chunkLoop t30 20 19 n (-2) (acc ++ [(-2, 17, pyStrip (pySlice t30 (-2) 17))]) := rfl
    rw [hstep]
    exact ih _

theorem chunkLoop_step_cont (text : List Char) (cs ov fuel : Nat) (start : Int)
    (acc : List (Int × Int × List Char)) (e : Int)
    (hs : start < (text.length : Int)) (he : chunkEnd text cs ov start = e)
    (hcont : ¬ (text.length : Int) ≤ e - (ov : Int)) :
    chunkLoop text cs ov (fuel + 1) start acc =
      chunkLoop text cs ov fuel (e - (ov : Int))
        (acc ++ [(start, e, pyStrip (pySlice text start e))]) := by
  conv_lhs => rw [chunkLoop]
  rw [he, if_pos hs, if_neg hcont]

theorem chunkLoop_step_last (text : List Char) (cs ov fuel : Nat) (start : Int)
    (acc : List (Int × Int × List Char)) (e : Int)
    (hs : start < (text.length : Int)) (he : chunkEnd text cs ov start = e)
    (hstop : (text.length : Int) ≤ e - (ov : Int)) :
    chunkLoop text cs ov (fuel + 1) start acc =
      some (acc ++ [(start, e, pyStrip (pySlice text start e))]) := by
  conv_lhs => rw [chunkLoop]
  rw [he, if_pos hs, if_pos hstop]

theorem sentCond_false_of_no_sent (text : List Char) (k : Int)
    (hsent : ∀ c ∈ text, isSentChar c = false) (hk : 0 ≤ k)
    (hlt : k < (text.length : Int)) :
    sentCond text k = false := by
  rw [sentCond_eq text k hk hlt, List.get_eq_getElem]
  exact hsent _ (List.getElem_mem _)

theorem chunkEnd_no_sent (text : List Char) (cs ov : Nat) (start : Int)
    (hin : start + (cs : Int) < (text.length : Int))
    (hsent : ∀ c ∈ text, isSentChar c = false) (hstart : 0 ≤ start) :
    chunkEnd text cs ov start = start + (cs : Int) := by
  unfold chunkEnd
  rw [if_pos hin]
  apply sentAdjust_eq_self
  intro i hi
  apply sentCond_false_of_no_sent text _ hsent (by omega) (by omega)

theorem chunkEnd_past_end (text : List Char) (cs ov : Nat) (start : Int)
    (hout : ¬ start + (cs : Int) < (text.length : Int)) :
    chunkEnd text cs ov start = start + (cs : Int) := by
  unfold chunkEnd
  rw [if_neg hout]

/-- Symbolic evaluation of the chunking loop on any 2500-character text with
no sentence-terminating characters, with `chunk_size = 1000` and
`overlap = 200`: the loop runs exactly four iterations, with windows
`[0,1000)`, `[800,1800)`, `[1600,2600)` and `[2400,3400)`. -/
theorem chunkLoop_eval_2500 (text : List Char) (hlen : text.length = 2500)
    (hsent : ∀ c ∈ text, isSentChar c = false) :
    chunkLoop text 1000 200 10 0 [] =
      some [(0, 1000, pyStrip (pySlice text 0 1000)),
        (800, 1800, pyStrip (pySlice text 800 1800)),
        (1600, 2600, pyStrip (pySlice text 1600 2600)),
        (2400, 3400, pyStrip (pySlice text 2400 3400))] := by
  have hc1 : chunkEnd text 1000 200 0 = 1000 := by
    rw [chunkEnd_no_sent text 1000 200 0 (by rw [hlen]; norm_num) hsent (by norm_num)]
    norm_num
  have hc2 : chunkEnd text 1000 200 800 = 1800 := by
    rw [chunkEnd_no_sent text 1000 200 800 (by rw [hlen]; norm_num) hsent (by norm_num)]
    norm_num
  have hc3 : chunkEnd text 1000 200 1600 = 2600 := by
    rw [chunkEnd_past_end text 1000 200 1600 (by rw [hlen]; norm_num)]
    norm_num
  have hc4 : chunkEnd text 1000 200 2400 = 3400 := by
    rw [chunkEnd_past_end text 1000 200 2400 (by rw [hlen]; norm_num)]
    norm_num
  have s1 : chunkLoop text 1000 200 10 0 [] =
      chunkLoop text 1000 200 9 800 [(0, 1000, pyStrip (pySlice text 0 1000))] := by
    have h := chunkLoop_step_cont text 1000 200 9 0 [] 1000
      (by rw [hlen]; norm_num) hc1 (by rw [hlen]; norm_num)
    exact h
  have s2 : chunkLoop text 1000 200 9 800 [(0, 1000, pyStrip (pySlice text 0 1000))] =
      chunkLoop text 1000 200 8 1600 [(0, 1000, pyStrip (pySlice text 0 1000)),
        (800, 1800, pyStrip (pySlice text 800 1800))] := by
    have h := chunkLoop_step_cont text 1000 200 8 800
      [(0, 1000, pyStrip (pySlice text 0 1000))] 1800
      (by rw [hlen]; norm_num) hc2 (by rw [hlen]; norm_num)
    exact h
  have s3 : chunkLoop text 1000 200 8 1600 [(0, 1000, pyStrip (pySlice text 0 1000)),
        (800, 1800, pyStrip (pySlice text 800 1800))] =
      chunkLoop text 1000 200 7 2400 [(0, 1000, pyStrip (pySlice text 0 1000)),
        (800, 1800, pyStrip (pySlice text 800 1800)),
        (1600, 2600, pyStrip (pySlice text 1600 2600))] := by
    have h := chunkLoop_step_cont text 1000 200 7 1600
      [(0, 1000, pyStrip (pySlice text 0 1000)),
        (800, 1800, pyStrip (pySlice text 800 1800))] 2600
      (by rw [hlen]; norm_num) hc3 (by rw [hlen]; norm_num)
    exact h
  have s4 : chunkLoop text 1000 200 7 2400 [(0, 1000, pyStrip (pySlice text 0 1000)),
        (800, 1800, pyStrip (pySlice text 800 1800)),
        (1600, 2600, pyStrip (pySlice text 1600 2600))] =
      some [(0, 1000, pyStrip (pySlice text 0 1000)),
        (800, 1800, pyStrip (pySlice text 800 1800)),
        (1600, 2600, pyStrip (pySlice text 1600 2600)),
        (2400, 3400, pyStrip (pySlice text 2400 3400))] := by
    have h := chunkLoop_step_last text 1000 200 6 2400
      [(0, 1000, pyStrip (pySlice text 0 1000)),
        (800, 1800, pyStrip (pySlice text 800 1800)),
        (1600, 2600, pyStrip (pySlice text 1600 2600))] 3400
      (by rw [hlen]; norm_num) hc4 (by rw [hlen]; norm_num)
    exact h
  rw [s1, s2, s3, s4]

theorem pySlice_2500_1 (text : List Char) (hlen : text.length = 2500) :
    pySlice text 0 1000 = text.take 1000 := by
  rw [pySlice_eq_take_drop text 0 1000 (by norm_num) (by norm_num) (by rw [hlen]; norm_num)]
  simp

theorem pySlice_2500_2 (text : List Char) (hlen : text.length = 2500) :
    pySlice text 800 1800 = (text.drop 800).take 1000 := by
  rw [pySlice_eq_take_drop text 800 1800 (by norm_num) (by norm_num) (by rw [hlen]; norm_num)]
  simp

theorem pySlice_2500_3 (text : List Char) (hlen : text.length = 2500) :
    pySlice text 1600 2600 = text.drop 1600 := by
  rw [pySlice_eq_drop text 1600 2600 (by norm_num) (by rw [hlen]; norm_num)
    (by rw [hlen]; norm_num)]
  simp

theorem pySlice_2500_4 (text : List Char) (hlen : text.length = 2500) :
    pySlice text 2400 3400 = text.drop 2400 := by
  rw [pySlice_eq_drop text 2400 3400 (by norm_num) (by rw [hlen]; norm_num)
    (by rw [hlen]; norm_num)]
  simp

/-- On a whitespace-free, sentence-terminator-free text of exactly 2500
characters, `chunk_text` with the default parameters returns the four
window substrings unchanged. -/
theorem chunk_text_eval_2500_nospace (text : List Char) (hlen : text.length = 2500)
    (hsent : ∀ c ∈ text, isSentChar c = false)
    (hspace : ∀ c ∈ text, pyIsSpace c = false) :
    chunk_text 10 text 1000 200 =
      some [text.take 1000, (text.drop 800).take 1000, text.drop 1600, text.drop 2400] := by
  have st1 : pyStrip (text.take 1000) = text.take 1000 :=
    pyStrip_eq_self _ (fun c hc => hspace c (List.mem_of_mem_take hc))
  have st2 : pyStrip ((text.drop 800).take 1000) = (text.drop 800).take 1000 :=
    pyStrip_eq_self _ (fun c hc => hspace c (List.mem_of_mem_drop (List.mem_of_mem_take hc)))
  have st3 : pyStrip (text.drop 1600) = text.drop 1600 :=
    pyStrip_eq_self _ (fun c hc => hspace c (List.mem_of_mem_drop hc))
  have st4 : pyStrip (text.drop 2400) = text.drop 2400 :=
    pyStrip_eq_self _ (fun c hc => hspace c (List.mem_of_mem_drop hc))
  have hne1 : text.take 1000 ≠ [] :=
    List.length_pos.mp (by rw [List.length_take, hlen]; norm_num)
  have hne2 : (text.drop 800).take 1000 ≠ [] :=
    List.length_pos.mp (by rw [List.length_take, List.length_drop, hlen]; norm_num)
  have hne3 : text.drop 1600 ≠ [] :=
    List.length_pos.mp (by rw [List.length_drop, hlen]; norm_num)
  have hne4 : text.drop 2400 ≠ [] :=
    List.length_pos.mp (by rw [List.length_drop, hlen]; norm_num)
  unfold chunk_text
  rw [if_neg (by omega), chunkLoop_eval_2500 text hlen hsent, pySlice_2500_1 text hlen,
    pySlice_2500_2 text hlen, pySlice_2500_3 text hlen, pySlice_2500_4 text hlen,
    st1, st2, st3, st4]
  simp only [Option.map_some', keptChunks, hne1, hne2, hne3, hne4, if_false, ite_false]

/-- On the 2500-character all-whitespace text, every window strips to the
empty string, so `chunk_text` returns zero chunks. -/
theorem chunk_text_eval_2500_allspace :
    chunk_text 10 (List.replicate 2500 ' ') 1000 200 = some [] := by
  have hlen : (List.replicate 2500 ' ').length = 2500 := List.length_replicate 2500 ' '
  have hsent : ∀ c ∈ List.replicate 2500 ' ', isSentChar c = false := by
    intro c hc
    rw [(List.mem_replicate.mp hc).2]
    decide
  have hsp : ∀ a b : Int, ∀ c ∈ pySlice (List.replicate 2500 ' ') a b, pyIsSpace c = true := by
    intro a b c hc
    unfold pySlice at hc
    have h1 := List.mem_of_mem_drop (List.mem_of_mem_take hc)
    rw [(List.mem_replicate.mp h1).2]
    decide
  unfold chunk_text
  rw [if_neg (by rw [hlen]; norm_num), chunkLoop_eval_2500 _ hlen hsent,
    pyStrip_eq_nil _ (hsp 0 1000), pyStrip_eq_nil _ (hsp 800 1800),
    pyStrip_eq_nil _ (hsp 1600 2600), pyStrip_eq_nil _ (hsp 2400 3400)]
  rfl

theorem chunkLoop_chain (text : List Char) (cs ov : Nat) :
    ∀ fuel (start : Int) (acc rs : List (Int × Int × List Char)),
      chunkLoop text cs ov fuel start acc = some rs →
      ∃ tl, rs = acc ++ tl ∧
        List.Chain' (fun a b => b.1 = a.2.1 - (ov : Int) ∧ b.1 ≤ a.2.1) tl ∧
        ∀ x ∈ tl.head?, x.1 = start := by
  intro fuel
  induction fuel with
  | zero =>
    intro start acc rs h
    exact absurd h (by rw [chunkLoop]; exact Option.noConfusion)
  | succ n ih =>
    intro start acc rs h
    rw [chunkLoop] at h
    split at h
    · split at h
      · obtain rfl := (Option.some.inj h).symm
        refine ⟨[(start, chunkEnd text cs ov start,
          pyStrip (pySlice text start (chunkEnd text cs ov start)))], rfl, ?_, ?_⟩
        · exact List.chain'_singleton _
        · simp
      · obtain ⟨tl, h1, h2, h3⟩ := ih _ _ _ h
        refine ⟨(start, chunkEnd text cs ov start,
          pyStrip (pySlice text start (chunkEnd text cs ov start))) :: tl, ?_, ?_, ?_⟩
        · rw [h1, List.append_assoc]
          rfl
        · rw [List.chain'_cons']
          refine ⟨fun y hy => ?_, h2⟩
          have hy1 := h3 y hy
          refine ⟨hy1, ?_⟩
          show y.1 ≤ chunkEnd text cs ov start
          omega
        · simp
    · obtain rfl := (Option.some.inj h).symm
      exact ⟨[], by simp, List.chain'_nil, by simp⟩

/-- C4: contrary to the claim, `chunk_text` performs no parameter
validation at all: there is no `ConfigurationError` anywhere in the code,
and with `overlap = chunk_size = 1` on the two-character text `"ab"` the
sliding-window loop never terminates (the window start stays at 0 forever),
never returning a result. -/
theorem chunk_text_no_validation_diverges : chunkDiverges abText 1 1 := by
  intro fuel
  unfold chunk_text
  rw [if_neg (by decide), chunkLoop_ab_stuck fuel []]
  rfl

/-- C5: contrary to the claim, `chunk_text` can fail to terminate even for
parameters with `0 ≤ overlap < chunk_size`: on the 30-character text
`'a'*16 ++ "." ++ 'a'*13` with `chunk_size = 20` and `overlap = 19`, the
sentence-boundary search pulls the window end back to 17 on every
iteration, so the window start becomes `17 - 19 = -2` and never advances
(the Python slice `text[-2:17]` is empty, and the next end is again 17). -/
theorem chunk_text_valid_params_diverges : chunkDiverges t30 20 19 := by
  intro fuel
  unfold chunk_text
  rw [if_neg (by decide)]
  cases fuel with
  | zero => rfl
  | succ n =>
    have h1 : chunkLoop t30 20 19 (n + 1) 0 [] =
        chunkLoop t30 20 19 n (-2) [(0, 17, pyStrip (pySlice t30 0 17))] := rfl
    rw [h1, chunkLoop_t30_stuck n]
    rfl

/-- C7 (amended): at the level of the loop's windows there is never a gap —
each iteration's window starts exactly at the previous window's end minus
the overlap, hence at or before the previous window's end.  (The original
claim about the *returned chunks* fails when a whole window is
whitespace-only and stripped away; see the counterexample.) -/
theorem chunk_windows_no_gap (text : List Char) (cs ov fuel : Nat)
    (rs : List (Int × Int × List Char))
    (h : chunkLoop text cs ov fuel 0 [] = some rs) :
    List.Chain' (fun a b => b.1 = a.2.1 - (ov : Int) ∧ b.1 ≤ a.2.1) rs := by
  obtain ⟨tl, h1, h2, _⟩ := chunkLoop_chain text cs ov fuel 0 [] rs h
  rw [List.nil_append] at h1
  rw [h1]
  exact h2

theorem chunk_windows_no_gap_witness :
    chunkLoop ['a', 'b', ' ', ' ', 'c', 'd'] 2 0 10 0 [] =
        some [(0, 2, ['a', 'b']), (2, 4, []), (4, 6, ['c', 'd'])] ∧
      List.Chain' (fun a b => b.1 = a.2.1 - ((0 : Nat) : Int) ∧ b.1 ≤ a.2.1)
        [(0, 2, ['a', 'b']), (2, 4, []), (4, 6, ['c', 'd'])] :=
  ⟨by decide, chunk_windows_no_gap ['a', 'b', ' ', ' ', 'c', 'd'] 2 0 10 _ (by decide)⟩

/-- C7 counterexample: on the text `"ab  cd"` with `chunk_size = 2` and
`overlap = 0` (valid parameters, text longer than the chunk size) the
middle window `[2,4)` is whitespace-only and stripped away, so the two
returned chunks come from the windows `[0,2)` and `[4,6)`: the second
chunk's source range begins at 4, strictly after the end 2 of the first
chunk's source range, and the characters at indices 2 and 3 belong to no
returned chunk. -/
theorem chunk_gap_cex :
    chunk_text 10 ['a', 'b', ' ', ' ', 'c', 'd'] 2 0 = some [['a', 'b'], ['c', 'd']] ∧
      (chunkLoop ['a', 'b', ' ', ' ', 'c', 'd'] 2 0 10 0 []).map
          (fun rs => rs.filter (fun r => !r.2.2.isEmpty)) =
        some [(0, 2, ['a', 'b']), (4, 6, ['c', 'd'])] ∧
      ¬ ((4 : Int) ≤ 2) :=
  ⟨by decide, by decide, by decide⟩

/-- C8 (amended): for a 2500-character content containing no whitespace and
no sentence-terminating characters, chunking with `chunk_size = 1000`,
`overlap = 200` yields exactly four chunks — the text windows `[0,1000)`,
`[800,1800)`, `[1600,2500)` and `[2400,2500)` — of lengths 1000, 1000, 900
and 100, each non-empty and at most 1000 characters, with consecutive
windows overlapping by 200, 200 and 100 ≤ 200 source characters.
(Unrestricted contents of length 2500 falsify the original claim: an
all-whitespace content yields zero chunks — see the counterexample — and a
sentence terminator sitting exactly at a window boundary can extend a chunk
to 1001 characters.) -/
theorem chunk_scenario_2500_amended (text : List Char) (hlen : text.length = 2500)
    (hsent : ∀ c ∈ text, isSentChar c = false)
    (hspace : ∀ c ∈ text, pyIsSpace c = false) :
    chunk_text 10 text 1000 200 =
        some [text.take 1000, (text.drop 800).take 1000, text.drop 1600, text.drop 2400] ∧
      (text.take 1000).length = 1000 ∧ ((text.drop 800).take 1000).length = 1000 ∧
      (text.drop 1600).length = 900 ∧ (text.drop 2400).length = 100 ∧
      (chunkLoop text 1000 200 10 0 []).map (fun rs => rs.map (fun r => (r.1, r.2.1))) =
        some [(0, 1000), (800, 1800), (1600, 2600), (2400, 3400)] := by
  refine ⟨chunk_text_eval_2500_nospace text hlen hsent hspace, ?_, ?_, ?_, ?_, ?_⟩
  · rw [List.length_take, hlen]
    norm_num
  · rw [List.length_take, List.length_drop, hlen]
    norm_num
  · rw [List.length_drop, hlen]
  · rw [List.length_drop, hlen]
  · rw [chunkLoop_eval_2500 text hlen hsent]
    rfl

theorem chunk_scenario_2500_amended_witness :
    (List.replicate 2500 'a').length = 2500 ∧
      chunk_text 10 (List.replicate 2500 'a') 1000 200 =
        some [(List.replicate 2500 'a').take 1000,
          ((List.replicate 2500 'a').drop 800).take 1000,
          (List.replicate 2500 'a').drop 1600, (List.replicate 2500 'a').drop 2400] :=
  ⟨List.length_replicate 2500 'a',
    (chunk_scenario_2500_amended (List.replicate 2500 'a') (List.length_replicate 2500 'a')
      (fun c hc => by rw [(List.mem_replicate.mp hc).2]; decide)
      (fun c hc => by rw [(List.mem_replicate.mp hc).2]; decide)).1⟩

/-- C8 counterexample: the all-whitespace content of length 2500 (which the
claim quantifies over) yields zero chunks with `chunk_size = 1000` and
`overlap = 200` — every window strips to the empty string and is dropped —
refuting the claimed `3 ≤ number of chunks ≤ 4`. -/
theorem chunk_scenario_2500_cex :
    chunk_text 10 (List.replicate 2500 ' ') 1000 200 = some [] ∧
      ¬ (3 ≤ ([] : List (List Char)).length ∧ ([] : List (List Char)).length ≤ 4) :=
  ⟨chunk_text_eval_2500_allspace, by decide⟩

/-- C9: whenever the content's length is at most `chunk_size`, `chunk_text`
returns exactly the one-element list containing the content itself,
character for character — the guard at embed_documents.py lines 415-416
returns before any stripping or splitting happens. -/
theorem chunk_text_short_identity (fuel : Nat) (text : List Char)
    (chunk_size overlap : Nat) (h : text.length ≤ chunk_size) :
    chunk_text fuel text chunk_size overlap = some [text] := by
  unfold chunk_text
  rw [if_pos h]

theorem chunk_text_short_identity_witness :
    (['x', ' ', 'y'] : List Char).length ≤ 1000 ∧
      chunk_text 0 ['x', ' ', 'y'] 1000 200 = some [['x', ' ', 'y']] :=
  ⟨by decide, chunk_text_short_identity 0 ['x', ' ', 'y'] 1000 200 (by decide)⟩

/-- C10: on the 2500-character content `'a' * 2500` with `chunk_size = 1000`
and `overlap = 200`, the last returned chunk (the window `[2400,2500)`) is
wholly contained in the preceding chunk (the window `[1600,2500)`): it
equals the preceding chunk with its first 800 characters dropped, i.e. it
covers no source characters beyond those already covered.  The final window
start 2400 was computed as `3400 - 200 - 800` from the unclipped end
`2400 = 2600 - 200` even though 2600 and 3400 exceed the text length. -/
theorem chunk_trailing_redundant :
    chunk_text 10 (List.replicate 2500 'a') 1000 200 =
        some [List.replicate 1000 'a', List.replicate 1000 'a',
          List.replicate 900 'a', List.replicate 100 'a'] ∧
      (List.replicate 100 'a' : List Char) = (List.replicate 900 'a').drop 800 ∧
      (List.replicate 100 'a' : List Char) ≠ [] ∧
      (List.replicate 2500 'a').length > 1000 := by
  refine ⟨?_, ?_, ?_, ?_⟩
  · rw [chunk_text_eval_2500_nospace (List.replicate 2500 'a') (List.length_replicate 2500 'a')
      (fun c hc => by rw [(List.mem_replicate.mp hc).2]; decide)
      (fun c hc => by rw [(List.mem_replicate.mp hc).2]; decide)]
    rw [List.take_replicate, List.drop_replicate, List.drop_replicate, List.drop_replicate,
      List.take_replicate]
    norm_num
  · rw [List.drop_replicate]
  · rw [Ne, ← List.length_eq_zero]
    rw [List.length_replicate]
    norm_num
  · rw [List.length_replicate]
    norm_num

example : chunk_text 10 ['a', 'b'] 3 1 = some [['a', 'b']] := by decide

example :
    chunk_text 10 ['a', 'b', ' ', ' ', 'c', 'd'] 2 0 = some [['a', 'b'], ['c', 'd']] := by
  decide

example :
    chunkLoop ['a', 'b', ' ', ' ', 'c', 'd'] 2 0 10 0 [] =
      some [(0, 2, ['a', 'b']), (2, 4, []), (4, 6, ['c', 'd'])] := by
  decide

/-- A source to be embedded (`DocumentSource` of embed_documents.py lines
92-108).  The fields `description`, `priority`, `file_path` and `api_params`
only flow into the opaque metadata blob or into content fetching, which is
outside the ingestion contract, so they are omitted here. -/
structure DocumentSource where
  type : List Char
  title : List Char
  category : List Char
  subcategory : List Char
  url : List Char
  deriving DecidableEq

/-- A registry entry (`EmbeddedDocument` of embed_documents.py lines
110-121; the opaque `metadata` dict is omitted — it never affects control
flow). -/
structure EmbeddedDocument where
  source_id : List Char
  title : List Char
  content_hash : List Char
  embedding_date : List Char
  chunk_count : Nat
  category : List Char
  subcategory : List Char
  source_type : List Char
  deriving DecidableEq

/-- The registry (`DocumentRegistry` of embed_documents.py lines 123-196):
the `embedded_documents` dict keyed by `source_id`, modelled as an
association list, plus the statistics counters the claims mention. -/
structure DocumentRegistry where
  embedded_documents : List (List Char × EmbeddedDocument)
  total_documents_embedded : Nat
  total_chunks_created : Nat
  deriving DecidableEq

def regLookup : List (List Char × EmbeddedDocument) → List Char → Option EmbeddedDocument
  | [], _ => none
  | (k, v) :: rest, sid => if k = sid then some v else regLookup rest sid

/-- Python dict assignment `d[sid] = e`: replace the binding if present,
append it otherwise. -/
def regInsert : List (List Char × EmbeddedDocument) → List Char → EmbeddedDocument →
    List (List Char × EmbeddedDocument)
  | [], sid, e => [(sid, e)]
  | (k, v) :: rest, sid, e =>
    if k = sid then (k, e) :: rest else (k, v) :: regInsert rest sid e

/-- `DocumentRegistry.is_document_embedded` (embed_documents.py lines
161-165). -/
def is_document_embedded (r : DocumentRegistry) (source_id content_hash : List Char) : Bool :=
  match regLookup r.embedded_documents source_id with
  | some e => decide (e.content_hash = content_hash)
  | none => false

/-- `DocumentRegistry.add_embedded_document` (embed_documents.py lines
167-172). -/
def add_embedded_document (r : DocumentRegistry) (doc : EmbeddedDocument) : DocumentRegistry :=
  { embedded_documents := regInsert r.embedded_documents doc.source_id doc
    total_documents_embedded := r.total_documents_embedded + 1
    total_chunks_created := r.total_chunks_created + doc.chunk_count }

/-- A row of the `medical_documents` table as inserted by `embed_document`
(embed_documents.py lines 456-473).  `source_id` and `content_hash` are the
two metadata entries the dedup contract depends on; the Supabase
auto-generated primary key is modelled by the `next_id` counter of
`Database`. -/
structure DocumentRow where
  id : Nat
  title : List Char
  content : List Char
  source : List Char
  topic : List Char
  url : List Char
  document_type : List Char
  source_id : List Char
  content_hash : List Char
  content_length : Nat
  deriving DecidableEq

/-- A row of the `document_embeddings` table (embed_documents.py lines
486-493). -/
structure EmbeddingRow where
  document_id : Nat
  chunk_index : Nat
  chunk_content : List Char
  embedding : List Int
  deriving DecidableEq

structure Database where
  medical_documents : List DocumentRow
  document_embeddings : List EmbeddingRow
  next_id : Nat
  deriving DecidableEq

structure PipelineState where
  registry : DocumentRegistry
  db : Database
  deriving DecidableEq

/-- The external collaborators of `embed_document`, modelled as opaque
functions: `contentHash` is `sha256(content).hexdigest()[:16]` (line 411),
`titleHash` is `sha256(title).hexdigest()[:8]` (line 444), `encode` is the
sentence-transformer model applied to one chunk, and `now` is the
`datetime.now().isoformat()` timestamp of the run. -/
structure EmbedConfig where
  contentHash : List Char → List Char
  titleHash : List Char → List Char
  encode : List Char → List Int
  now : List Char

/-- The stable id `f"{category}_{subcategory}_{sha256(title)[:8]}"`
(embed_documents.py line 444). -/
def mkSourceId (cfg : EmbedConfig) (s : DocumentSource) : List Char :=
  s.category ++ '_' :: s.subcategory ++ '_' :: cfg.titleHash s.title

/-- The persistence block of `embed_document` (embed_documents.py lines
454-516): insert one `medical_documents` row under a fresh id, insert one
`document_embeddings` row per chunk (with its index and its embedding), and
record the document in the registry.  Nothing is ever deleted. -/
def insertDocument (cfg : EmbedConfig) (source : DocumentSource) (content : List Char)
    (chunks : List (List Char)) (st : PipelineState) : PipelineState :=
  { registry := add_embedded_document st.registry
      { source_id := mkSourceId cfg source
        title := source.title
        content_hash := cfg.contentHash content
        embedding_date := cfg.now
        chunk_count := chunks.length
        category := source.category
        subcategory := source.subcategory
        source_type := source.type }
    db :=
      { medical_documents := st.db.medical_documents ++
          [{ id := st.db.next_id
             title := source.title
             content := content
             source := source.category ++ '_' :: source.type
             topic := source.subcategory
             url := source.url
             document_type := source.type
             source_id := mkSourceId cfg source
             content_hash := cfg.contentHash content
             content_length := content.length }]
        document_embeddings := st.db.document_embeddings ++ chunks.enum.map (fun p =>
          ({ document_id := st.db.next_id
             chunk_index := p.1
             chunk_content := p.2
             embedding := cfg.encode p.2 } : EmbeddingRow))
        next_id := st.db.next_id + 1 } }

/-- `DocumentEmbedder.embed_document` (embed_documents.py lines 442-522):
skip when the registry already holds this `source_id` at this content hash
(unless forced); otherwise insert one `medical_documents` row with a fresh
id, chunk the content with the default parameters, insert one
`document_embeddings` row per chunk, and record the document in the
registry.  The boolean result is the function's return value.  Database
inserts are modelled as list appends that always succeed; `none` means the
chunking loop ran out of fuel (the Python code would at that point have
inserted the document row and then hung — no claim depends on that partial
state). -/
def embed_document (cfg : EmbedConfig) (fuel : Nat) (source : DocumentSource)
    (content : List Char) (st : PipelineState) (force : Bool) :
    Option (PipelineState × Bool) :=
  if force = false ∧ is_document_embedded st.registry (mkSourceId cfg source)
      (cfg.contentHash content) = true then
    some (st, false)
  else
    match chunk_text fuel content 1000 200 with
    | none => none
    | some chunks => some (insertDocument cfg source content chunks st, true)

inductive ModelSetupError where
  | loadFailure
  deriving DecidableEq

structure EmbedderSetup where
  embedding_dimension : Nat
  warned_mismatch : Bool
  deriving DecidableEq

/-- The dimension verification of `setup_embedding_model`
(embed_and_upload_mcp.py lines 70-78 and, identically,
auto_scrape_and_embed.py lines 176-184): when the observed output dimension
differs from the configured one, the code logs a warning and overwrites
`self.embedding_dimension` with the observed value; no exception is raised
on a mismatch (the only `raise` in the function re-raises model-load
failures, which happen before this check). -/
def setup_embedding_model (expected_dimension actual_dimension : Nat) :
    Except ModelSetupError EmbedderSetup :=
  if actual_dimension ≠ expected_dimension then
    Except.ok { embedding_dimension := actual_dimension, warned_mismatch := true }
  else
    Except.ok { embedding_dimension := expected_dimension, warned_mismatch := false }

/-- A scraped document as deduplicated by `scrape_all_sources`
(medical_document_scraper.py); only the fields relevant to the dedup loop
are kept. -/
structure ScrapedDocument where
  title : List Char
  content : List Char
  source : List Char
  topic : List Char
  url : List Char
  deriving DecidableEq

/-- The content-hash dedup loop of `MedicalDocumentScraper.scrape_all_sources`
(medical_document_scraper.py lines 590-599): walk the scraped documents in
order, keeping a document only when its content hash (there, the full
`sha256` hex digest, modelled by the `hash` parameter) has not been seen
before in this run. -/
def dedupLoop (hash : List Char → List Char) :
    List ScrapedDocument → List (List Char) → List ScrapedDocument
  | [], _ => []
  | d :: rest, seen =>
    if hash d.content ∈ seen then dedupLoop hash rest seen
    else d :: dedupLoop hash rest (hash d.content :: seen)

def remove_duplicate_documents (hash : List Char → List Char)
    (docs : List ScrapedDocument) : List ScrapedDocument :=
  dedupLoop hash docs []

theorem regLookup_regInsert (reg : List (List Char × EmbeddedDocument)) (sid : List Char)
    (e : EmbeddedDocument) : regLookup (regInsert reg sid e) sid = some e := by
  induction reg with
  | nil => simp [regInsert, regLookup]
  | cons kv rest ih =>
    obtain ⟨k, v⟩ := kv
    by_cases hk : k = sid
    · simp [regInsert, regLookup, hk]
    · simp [regInsert, regLookup, hk, ih]

theorem regLookup_regInsert_ne (reg : List (List Char × EmbeddedDocument))
    (sid sid' : List Char) (e : EmbeddedDocument) (h : sid ≠ sid') :
    regLookup (regInsert reg sid e) sid' = regLookup reg sid' := by
  induction reg with
  | nil => simp [regInsert, regLookup, h]
  | cons kv rest ih =>
    obtain ⟨k, v⟩ := kv
    by_cases hk : k = sid
    · subst hk
      simp [regInsert, regLookup, h]
    · simp [regInsert, regLookup, hk, ih]

theorem is_document_embedded_insertDocument (cfg : EmbedConfig) (source : DocumentSource)
    (content : List Char) (chunks : List (List Char)) (st : PipelineState) :
    is_document_embedded (insertDocument cfg source content chunks st).registry
      (mkSourceId cfg source) (cfg.contentHash content) = true := by
  unfold insertDocument is_document_embedded add_embedded_document
  dsimp only
  rw [regLookup_regInsert]
  simp

theorem is_document_embedded_insertDocument_ne (cfg : EmbedConfig) (source : DocumentSource)
    (content : List Char) (chunks : List (List Char)) (st : PipelineState)
    (sid hsh : List Char) (hne : mkSourceId cfg source ≠ sid) :
    is_document_embedded (insertDocument cfg source content chunks st).registry sid hsh =
      is_document_embedded st.registry sid hsh := by
  unfold insertDocument is_document_embedded add_embedded_document
  dsimp only
  rw [regLookup_regInsert_ne _ _ _ _ hne]

theorem insertDocument_docs_length (cfg : EmbedConfig) (source : DocumentSource)
    (content : List Char) (chunks : List (List Char)) (st : PipelineState) :
    (insertDocument cfg source content chunks st).db.medical_documents.length =
      st.db.medical_documents.length + 1 := by
  unfold insertDocument
  dsimp only
  rw [List.length_append]
  rfl

/-- C1: skipping is idempotent across runs — after a successful ingestion of
a source, ingesting the same source with byte-identical content and the
force flag unset returns `False` with the state unchanged: no document row,
no chunk rows, and no registry modification, so the registry's
`chunk_count` for that source is exactly what the first ingestion wrote. -/
theorem embed_document_idempotent (cfg : EmbedConfig) (fuel : Nat)
    (source : DocumentSource) (content : List Char) (st st1 : PipelineState)
    (h : embed_document cfg fuel source content st false = some (st1, true)) :
    embed_document cfg fuel source content st1 false = some (st1, false) := by
  unfold embed_document at h
  split at h
  · simp at h
  · cases hc : chunk_text fuel content 1000 200 with
    | none =>
      rw [hc] at h
      exact Option.noConfusion h
    | some chunks =>
      rw [hc] at h
      dsimp only at h
      have hp := Option.some.inj h
      rw [Prod.mk.injEq] at hp
      have hst := hp.1
      have hemb : is_document_embedded st1.registry (mkSourceId cfg source)
          (cfg.contentHash content) = true := by
        rw [← hst]
        exact is_document_embedded_insertDocument cfg source content chunks st
      unfold embed_document
      rw [if_pos ⟨rfl, hemb⟩]

/-- C2 (amended): a non-skipped ingestion appends — it inserts exactly one
new document row (carrying the stable source id in its metadata) and
appends the new chunk rows, deleting nothing: every previously stored
document row and chunk row is still present afterwards.  In particular,
re-ingesting a document whose content hash changed (or with the force flag
set) leaves the old document record and its chunk set in the store
alongside the new ones. -/
theorem embed_document_appends (cfg : EmbedConfig) (fuel : Nat)
    (source : DocumentSource) (content : List Char) (st st' : PipelineState) (force : Bool)
    (h : embed_document cfg fuel source content st force = some (st', true)) :
    ∃ row rows, st'.db.medical_documents = st.db.medical_documents ++ [row] ∧
      row.source_id = mkSourceId cfg source ∧
      st'.db.document_embeddings = st.db.document_embeddings ++ rows := by
  unfold embed_document at h
  split at h
  · simp at h
  · cases hc : chunk_text fuel content 1000 200 with
    | none =>
      rw [hc] at h
      exact Option.noConfusion h
    | some chunks =>
      rw [hc] at h
      dsimp only at h
      have hp := Option.some.inj h
      rw [Prod.mk.injEq] at hp
      have hst := hp.1
      rw [← hst]
      exact ⟨_, _, rfl, rfl, rfl⟩

/-- C3 (amended): when the model's observed output dimension differs from
the configured expectation, `setup_embedding_model` logs a warning and
overwrites the configured dimension with the observed one, then continues
normally — no `DimensionMismatchError` (no exception of any kind) is
raised, and the run proceeds with the observed dimension. -/
theorem setup_dimension_adapts (expected actual : Nat) (h : actual ≠ expected) :
    setup_embedding_model expected actual =
      Except.ok { embedding_dimension := actual, warned_mismatch := true } := by
  unfold setup_embedding_model
  rw [if_pos h]

theorem setup_dimension_adapts_witness :
    (384 : Nat) ≠ 768 ∧
      setup_embedding_model 768 384 =
        Except.ok { embedding_dimension := 384, warned_mismatch := true } :=
  ⟨by decide, setup_dimension_adapts 768 384 (by decide)⟩

/-- C3 counterexample: with 768 configured and 384 observed, the setup
returns normally (it does not fail), carrying the observed dimension 384
and only a logged warning — the claimed `DimensionMismatchError` abort does
not happen, and nothing stops later persistence. -/
theorem setup_dimension_mismatch_cex :
    setup_embedding_model 768 384 =
      Except.ok { embedding_dimension := 384, warned_mismatch := true } ∧
    (384 : Nat) ≠ 768 :=
  ⟨rfl, by decide⟩

/-- C6 (amended): the embedding pipeline of embed_documents.py keeps no
run-level content-hash set: two sources with byte-identical content but
different stable ids (e.g. different titles) are both embedded and both
persisted in the same run.  Content-hash dedup within a run exists only in
the scraper's `scrape_all_sources`, whose loop keeps the first document
with a given content hash and drops later ones from its returned list (the
removed count is only logged, not stored in run statistics). -/
theorem cross_document_dedup_amended :
    (∀ (cfg : EmbedConfig) (fuel : Nat) (s1 s2 : DocumentSource) (content : List Char)
        (st st1 : PipelineState),
      embed_document cfg fuel s1 content st false = some (st1, true) →
      is_document_embedded st.registry (mkSourceId cfg s2) (cfg.contentHash content) = false →
      mkSourceId cfg s1 ≠ mkSourceId cfg s2 →
      ∃ st2, embed_document cfg fuel s2 content st1 false = some (st2, true) ∧
        st2.db.medical_documents.length = st.db.medical_documents.length + 2) ∧
    (∀ (hash : List Char → List Char) (d1 d2 : ScrapedDocument),
      hash d1.content = hash d2.content →
      remove_duplicate_documents hash [d1, d2] = [d1]) := by
  constructor
  · intro cfg fuel s1 s2 content st st1 h hnot hne
    unfold embed_document at h
    split at h
    · simp at h
    · cases hc : chunk_text fuel content 1000 200 with
      | none =>
        rw [hc] at h
        exact Option.noConfusion h
      | some chunks =>
        rw [hc] at h
        dsimp only at h
        have hp := Option.some.inj h
        rw [Prod.mk.injEq] at hp
        have hst := hp.1
        have hemb2 : is_document_embedded st1.registry (mkSourceId cfg s2)
            (cfg.contentHash content) = false := by
          rw [← hst, is_document_embedded_insertDocument_ne cfg s1 content chunks st _ _ hne]
          exact hnot
        refine ⟨insertDocument cfg s2 content chunks st1, ?_, ?_⟩
        · unfold embed_document
          rw [if_neg (by
            intro hcontra
            rw [hemb2] at hcontra
            exact Bool.false_ne_true hcontra.2), hc]
        · rw [← hst, insertDocument_docs_length, insertDocument_docs_length]
  · intro hash d1 d2 hEq
    unfold remove_duplicate_documents dedupLoop
    rw [if_neg (List.not_mem_nil _)]
    unfold dedupLoop
    rw [hEq, if_pos (List.mem_cons_self _ _)]
    rfl

def cfgW : EmbedConfig :=
  { contentHash := fun c => c
    titleHash := fun c => c
    encode := fun _ => [0]
    now := [] }

def srcW : DocumentSource :=
  { type := ['t'], title := ['t'], category := ['c'], subcategory := ['s'], url := [] }

def srcW2 : DocumentSource :=
  { srcW with title := ['u'] }

def regEmpty : DocumentRegistry :=
  { embedded_documents := []
    total_documents_embedded := 0
    total_chunks_created := 0 }

def dbEmpty : Database :=
  { medical_documents := []
    document_embeddings := []
    next_id := 0 }

def stEmpty : PipelineState :=
  { registry := regEmpty
    db := dbEmpty }

/-- The state after ingesting `srcW` with content `"xy"` from the empty state. -/
def stXYW : PipelineState :=
  ((embed_document cfgW 1 srcW ['x', 'y'] stEmpty false).getD (stEmpty, false)).1

/-- The state after additionally ingesting `srcW2` (different title, same
content `"xy"`). -/
def stXY2W : PipelineState :=
  ((embed_document cfgW 1 srcW2 ['x', 'y'] stXYW false).getD (stEmpty, false)).1

/-- The state after ingesting `srcW` with content `"old"` from the empty state. -/
def stOldW : PipelineState :=
  ((embed_document cfgW 1 srcW ['o', 'l', 'd'] stEmpty false).getD (stEmpty, false)).1

/-- The state after re-ingesting `srcW` with changed content `"new"`. -/
def stNewW : PipelineState :=
  ((embed_document cfgW 1 srcW ['n', 'e', 'w'] stOldW false).getD (stEmpty, false)).1

theorem embed_document_idempotent_witness :
    embed_document cfgW 1 srcW ['x', 'y'] stEmpty false = some (stXYW, true) ∧
      embed_document cfgW 1 srcW ['x', 'y'] stXYW false = some (stXYW, false) :=
  ⟨by decide, embed_document_idempotent cfgW 1 srcW ['x', 'y'] stEmpty stXYW (by decide)⟩

theorem embed_document_appends_witness :
    embed_document cfgW 1 srcW ['n', 'e', 'w'] stOldW false = some (stNewW, true) ∧
      ∃ row rows, stNewW.db.medical_documents = stOldW.db.medical_documents ++ [row] ∧
        row.source_id = mkSourceId cfgW srcW ∧
        stNewW.db.document_embeddings = stOldW.db.document_embeddings ++ rows :=
  ⟨by decide,
    embed_document_appends cfgW 1 srcW ['n', 'e', 'w'] stOldW stNewW false (by decide)⟩

/-- C2 counterexample: ingest `srcW` with content `"old"`, then re-ingest it
with changed content `"new"` (the content hash changes, so the registry
check does not skip).  Afterwards the store holds TWO `medical_documents`
rows with the same stable source id, and the chunk rows of the first
ingestion (under document id 0) are still present next to the new ones
(under document id 1): nothing was deleted, contradicting the claimed
delete-then-insert replacement. -/
theorem embed_document_no_delete_cex :
    embed_document cfgW 1 srcW ['o', 'l', 'd'] stEmpty false = some (stOldW, true) ∧
      embed_document cfgW 1 srcW ['n', 'e', 'w'] stOldW false = some (stNewW, true) ∧
      (stNewW.db.medical_documents.filter
        (fun r => decide (r.source_id = mkSourceId cfgW srcW))).length = 2 ∧
      (stNewW.db.document_embeddings.filter (fun r => decide (r.document_id = 0))).length = 1 ∧
      (stNewW.db.document_embeddings.filter (fun r => decide (r.document_id = 1))).length = 1 :=
  ⟨by decide, by decide, by decide, by decide, by decide⟩

def docW1 : ScrapedDocument :=
  { title := ['p'], content := ['x', 'y'], source := ['w'], topic := ['h'], url := [] }

def docW2 : ScrapedDocument :=
  { docW1 with title := ['q'] }

theorem cross_document_dedup_amended_witness :
    (embed_document cfgW 1 srcW ['x', 'y'] stEmpty false = some (stXYW, true) ∧
      (∃ st2, embed_document cfgW 1 srcW2 ['x', 'y'] stXYW false = some (st2, true) ∧
        st2.db.medical_documents.length = stEmpty.db.medical_documents.length + 2)) ∧
      remove_duplicate_documents (fun c => c) [docW1, docW2] = [docW1] :=
  ⟨⟨by decide,
    cross_document_dedup_amended.1 cfgW 1 srcW srcW2 ['x', 'y'] stEmpty stXYW
      (by decide) (by decide) (by decide)⟩,
    cross_document_dedup_amended.2 (fun c => c) docW1 docW2 rfl⟩

/-- C6 counterexample: from the empty state, ingest two sources with
byte-identical content `"xy"` but different titles in the same run: both
calls return `True` and both documents are persisted — the store ends with
two `medical_documents` rows carrying the same content — because the
embedding pipeline checks only the per-source registry (keyed by a
title-dependent stable id) and keeps no run-level set of content hashes. -/
theorem cross_document_dedup_cex :
    embed_document cfgW 1 srcW ['x', 'y'] stEmpty false = some (stXYW, true) ∧
      embed_document cfgW 1 srcW2 ['x', 'y'] stXYW false = some (stXY2W, true) ∧
      stXY2W.db.medical_documents.map (fun r => r.content) = [['x', 'y'], ['x', 'y']] ∧
      stXY2W.db.medical_documents.length = 2 :=
  ⟨by decide, by decide, by decide, by decide⟩

end WellnessGrid
